import Mathlib

/-!
Verification of the amazon_price_tracker repository: a shallow embedding of
the scraper (`amazon_price_tracker.py`) and the dashboard (`streamlit_app.py`)
together with theorems settling the specification's claims.

Modelling conventions:
* Python strings are Lean `String`s; character-level processing works on
  `String.data` (a `List Char`).  `str.replace(c, "")` for a single-character
  pattern removes every occurrence of that character, which at the character
  list level is a `filter`.
* A pandas cell that may be `NaN` is an `Option String` (`none` = `NaN`).
* Python `float` values produced by parsing short decimal digit strings are
  modelled exactly as rationals (`ℚ`); no rounding of the binary
  representation is involved at the granularity of the claims.
* Selenium look.ups on a live page are modelled by a `Page` record giving, for
  each selector the scraper uses, the text the lookup would return (`none` =
  the lookup raises / times out).
-/

namespace AmazonTracker

/-! ### Price normalizer: `clean_price` in streamlit_app.py (lines 28-37) -/

/-- The three `replace` calls of `clean_price`:
`str(x).replace("₹", "").replace(",", "").replace(" ", "")`.
A single-character pattern replaced by the empty string removes every
occurrence of the character. -/
def stripChars (l : List Char) : List Char :=
  ((l.filter (fun c => c ≠ '₹')).filter (fun c => c ≠ ',')).filter (fun c => c ≠ ' ')

/-- `''.join(c for c in s if c.isdigit() or c == '.')`. -/
def keepDigits (l : List Char) : List Char :=
  l.filter (fun c => c.isDigit || c = '.')

/-- Value of a (possibly empty) run of decimal digits, most significant first. -/
def digitsVal (l : List Char) : ℕ :=
  l.foldl (fun a c => a * 10 + (c.toNat - 48)) 0

/-- Python `float(...)` applied to a string of digits and dots: at most one
dot, at least one digit; the exact rational value otherwise `none`
(modelling the `ValueError` caught by `clean_price`). -/
def pyFloat (l : List Char) : Option ℚ :=
  if l.all (fun c => c.isDigit || c = '.') then
    match l.splitOn '.' with
    | [ip] => if ip = [] then none else some (digitsVal ip)
    | [ip, fp] =>
        if ip = [] && fp = [] then none
        else some ((digitsVal ip : ℚ) + (digitsVal fp : ℚ) / (10 : ℚ) ^ fp.length)
    | _ => none
  else none

/-- `clean_price` (streamlit_app.py lines 28-37).  The argument is the raw
cell: `none` models a pandas `NaN` (caught by `pd.isna`), and the empty
string is caught by `not x`. -/
def clean_price (x : Option String) : Option ℚ :=
  match x with
  | none => none
  | some s =>
    if s.data = [] then none
    else
      let digits := keepDigits (stripChars s.data)
      if digits = [] then none else pyFloat digits

/-! ### Discount computation: the mask block of streamlit_app.py (lines 64-80) -/

/-- Round-half-to-even to an integer, the rounding used by
pandas/numpy `.round`. -/
def roundHalfToEven (q : ℚ) : ℤ :=
  if q - ⌊q⌋ < 1/2 then ⌊q⌋
  else if q - ⌊q⌋ > 1/2 then ⌊q⌋ + 1
  else if 2 ∣ ⌊q⌋ then ⌊q⌋ else ⌊q⌋ + 1

/-- `.round(1)`: round-half-to-even at one decimal place. -/
def round1 (q : ℚ) : ℚ :=
  (roundHalfToEven (q * 10) : ℚ) / 10

/-- The per-row value of `Discount_%` (streamlit_app.py lines 64-80): the
column starts as `None`; the mask requires `Current_Price` and `MRP_Price`
non-null, `MRP_Price > 0` and `Current_Price > 0`; on masked rows the value
is `((MRP_Price - Current_Price) / MRP_Price * 100).round(1)`. -/
def discount_percent (cp mp : Option ℚ) : Option ℚ :=
  match cp, mp with
  | some c, some m =>
      if 0 < m ∧ 0 < c then some (round1 ((m - c) / m * 100)) else none
  | _, _ => none

/-! ### Scraper: `get_amazon_data` in amazon_price_tracker.py (lines 53-117) -/

/-- Outcome of each selector lookup `get_amazon_data` performs on a page.
`none` means the lookup raises (`TimeoutException` for the title `wait.until`,
any exception for the `find_element` calls). -/
structure Page where
  titleResult : Option String
  priceWhole : Option String
  priceFraction : Option String
  priceAlt : Option String
  mrp : Option String
  rating : Option String
  reviews : Option String
  availability : Option String

/-- The dictionary built by `get_amazon_data`: nine fields, one value each. -/
structure ProductRecord where
  URL : String
  Title : String
  Price : String
  MRP : String
  Discount : String
  Rating : String
  Reviews : String
  Availability : String
  Timestamp : String
deriving DecidableEq

/-- `get_amazon_data` (amazon_price_tracker.py lines 53-117).  The dict is
initialized with sentinel values; a `TimeoutException` from the title wait
skips every later lookup and overwrites only the title; each later lookup
falls back independently (`Price` needs both the whole and the fraction
element, else tries the alternative selector; `Availability` falls back to
"In Stock").  `ts` is `datetime.now().strftime(...)` at entry. -/
def get_amazon_data (url : String) (ts : String) (page : Page) : ProductRecord :=
  match page.titleResult with
  | none =>
      { URL := url, Title := "Blocked or Timeout - Manual check needed",
        Price := "N/A", MRP := "N/A", Discount := "N/A", Rating := "N/A",
        Reviews := "N/A", Availability := "N/A", Timestamp := ts }
  | some t =>
      { URL := url
        Title := t.trim
        Price :=
          match page.priceWhole, page.priceFraction with
          | some w, some f => "₹" ++ (w.replace "." "") ++ f
          | _, _ =>
            match page.priceAlt with
            | some a => a
            | none => "N/A"
        MRP := page.mrp.getD "N/A"
        Discount := "N/A"
        Rating := page.rating.getD "N/A"
        Reviews := page.reviews.getD "N/A"
        Availability :=
          match page.availability with
          | some a => a.trim
          | none => "In Stock"
        Timestamp := ts }

/-- Column order of the output: the insertion order of the dict keys, which
`pd.DataFrame` preserves and `to_csv` writes as the header. -/
def csvHeader : List String :=
  ["URL", "Title", "Price", "MRP", "Discount", "Rating", "Reviews",
   "Availability", "Timestamp"]

/-- The CSV row written for one record. -/
def recordRow (r : ProductRecord) : List String :=
  [r.URL, r.Title, r.Price, r.MRP, r.Discount, r.Rating, r.Reviews,
   r.Availability, r.Timestamp]

/-- The main scraping loop (lines 120-124): one `get_amazon_data` call per
configured URL, every result appended.  `pages` gives the page each URL
loads as, `ts` the collection time of each visit. -/
def scrapeAll (urls : List String) (pages : String → Page) (ts : String → String) :
    List ProductRecord :=
  urls.map fun u => get_amazon_data u (ts u) (pages u)

/-- `df.to_csv` content (line 130): header row then one row per record. -/
def outputCsv (urls : List String) (pages : String → Page) (ts : String → String) :
    List (List String) :=
  csvHeader :: (scrapeAll urls pages ts).map recordRow

/-- The output file name (line 130): `runTs` is
`datetime.now().strftime("%Y%m%d_%H%M")`. -/
def outputFilename (runTs : String) : String :=
  "amazon_prices_" ++ runTs ++ ".csv"

/-! ### Snapshot selector: `load_data` in streamlit_app.py (lines 41-54) -/

/-- `listStarts s p` decides whether `p` is an initial segment of `s`. -/
def listStarts : List Char → List Char → Bool
  | _, [] => true
  | [], _ :: _ => false
  | a :: as, b :: bs => a = b && listStarts as bs

/-- Python `str.startswith`. -/
def strStarts (s p : String) : Bool := listStarts s.data p.data

/-- Python `str.endswith`. -/
def strEnds (s p : String) : Bool := listStarts s.data.reverse p.data.reverse

/-- The filter of line 43: `f.startswith("amazon_prices_") and f.endswith(".csv")`. -/
def matchesPattern (f : String) : Bool :=
  strStarts f "amazon_prices_" && strEnds f ".csv"

/-- Python `max(files, key=key)`: `none` on empty input, otherwise the first
element with maximal key (a later element replaces the running maximum only
when strictly greater). -/
def pyMax (key : String → ℕ) : List String → Option String
  | [] => none
  | x :: xs => some (xs.foldl (fun best y => if key y > key best then y else best) x)

/-- `load_data` (streamlit_app.py lines 41-54).  `listing` is `os.listdir('.')`,
`ctime` is `os.path.getctime`, `readCsv` is the `pd.read_csv` +
`pd.to_datetime` step with `none` for a raised exception.  Returns the pair
`(df, latest)`; both are `None` when no file matches or reading fails. -/
def load_data {α : Type} (listing : List String) (ctime : String → ℕ)
    (readCsv : String → Option α) : Option α × Option String :=
  let files := listing.filter fun f => matchesPattern f
  match pyMax ctime files with
  | none => (none, none)
  | some latest =>
    match readCsv latest with
    | some df => (some df, some latest)
    | none => (none, none)

/-- Lines 56-58 of streamlit_app.py: `df, filename = load_data()` followed by
`if df is None: st.stop()` — rendering halts exactly when the first component
is `None`. -/
def presenterStops {α : Type} (result : Option α × Option String) : Bool :=
  result.1.isNone

/-! ### Current-prices table: streamlit_app.py lines 126-127 -/

/-- The columns of the loaded table that lines 126-127 operate on; the
timestamp is the parsed `pd.to_datetime` value, modelled as a number. -/
structure DashRow where
  Title : String
  URL : String
  Timestamp : ℕ
deriving DecidableEq

/-- Comparison used by `df.sort_values("Timestamp")`. -/
def tsLe (a b : DashRow) : Prop := a.Timestamp ≤ b.Timestamp

instance : DecidableRel tsLe := fun a b => Nat.decLe a.Timestamp b.Timestamp

instance : IsTotal DashRow tsLe := ⟨fun a b => Nat.le_total a.Timestamp b.Timestamp⟩

instance : IsTrans DashRow tsLe := ⟨fun _ _ _ h h' => Nat.le_trans h h'⟩

/-- `drop_duplicates(subset="Title", keep="last")`: a row survives iff no
later row carries the same `Title`; the relative order of survivors is kept. -/
def dropDupKeepLast : List DashRow → List DashRow
  | [] => []
  | r :: rs =>
    if rs.any (fun s => s.Title = r.Title) then dropDupKeepLast rs
    else r :: dropDupKeepLast rs

/-- Line 126: `df.sort_values("Timestamp").drop_duplicates(subset="Title",
keep="last")`.  `sort_values` is modelled by a sort on the timestamp (pandas
leaves the order of equal timestamps unspecified; any sorted permutation
satisfies the properties proved below). -/
def dashCurrent (rows : List DashRow) : List DashRow :=
  dropDupKeepLast (List.insertionSort tsLe rows)

/-! ### Helper lemmas -/

/-- The `replace` calls of `clean_price` only remove characters the digit
filter would drop anyway: filtering to digits and dots after the replaces
equals filtering the original string. -/
theorem keepDigits_stripChars (l : List Char) :
    keepDigits (stripChars l) = keepDigits l := by
  unfold keepDigits stripChars
  rw [List.filter_filter, List.filter_filter, List.filter_filter]
  congr 1
  funext c
  by_cases hd : c.isDigit
  · have h1 : c ≠ '₹' := by intro h; rw [h] at hd; exact absurd hd (by decide)
    have h2 : c ≠ ',' := by intro h; rw [h] at hd; exact absurd hd (by decide)
    have h3 : c ≠ ' ' := by intro h; rw [h] at hd; exact absurd hd (by decide)
    simp [hd, h1, h2, h3]
  · by_cases he : c = '.'
    · subst he; simp
    · simp [hd, he]

/-- A successful Python `float` parse of a digits-and-dots string is
non-negative. -/
theorem pyFloat_nonneg (l : List Char) (q : ℚ) (h : pyFloat l = some q) : 0 ≤ q := by
  unfold pyFloat at h
  split at h
  · split at h
    · split at h
      · exact absurd h (by simp)
      · rw [Option.some_inj] at h
        rw [← h]
        exact Nat.cast_nonneg _
    · split at h
      · exact absurd h (by simp)
      · rw [Option.some_inj] at h
        rw [← h]
        exact add_nonneg (Nat.cast_nonneg _)
          (div_nonneg (Nat.cast_nonneg _) (by positivity))
    · exact absurd h (by simp)
  · exact absurd h (by simp)

/-- `clean_price` demands nothing of the pre-replaced characters: the result
is determined by the digit-and-dot filtered string alone. -/
theorem clean_price_eq_keepDigits (s : String) :
    clean_price (some s) =
      if keepDigits s.data = [] then none else pyFloat (keepDigits s.data) := by
  have hcp : clean_price (some s) =
      if s.data = [] then none
      else if keepDigits (stripChars s.data) = [] then none
      else pyFloat (keepDigits (stripChars s.data)) := rfl
  rw [hcp, keepDigits_stripChars]
  by_cases h : s.data = []
  · rw [if_pos h, h]
    have hkd : keepDigits ([] : List Char) = [] := rfl
    rw [hkd]
    simp
  · rw [if_neg h]

/-- `p` is an initial segment of `p ++ r`. -/
theorem listStarts_append (p r : List Char) : listStarts (p ++ r) p = true := by
  induction p with
  | nil => cases r <;> rfl
  | cons a as ih => simp [listStarts, ih]

/-- The scraper's output file name matches the dashboard's snapshot filter. -/
theorem matchesPattern_outputFilename (runTs : String) :
    matchesPattern (outputFilename runTs) = true := by
  unfold matchesPattern outputFilename strStarts strEnds
  rw [String.data_append, String.data_append, Bool.and_eq_true]
  refine ⟨?_, ?_⟩
  · rw [List.append_assoc]
    exact listStarts_append "amazon_prices_".data (runTs.data ++ ".csv".data)
  · rw [List.reverse_append, List.reverse_append]
    exact listStarts_append ".csv".data.reverse
      (runTs.data.reverse ++ "amazon_prices_".data.reverse)

/-- Python `max` with a key returns the strictly dominating element. -/
theorem pyMax_foldl (key : String → ℕ) (f : String) :
    ∀ (l : List String) (b : String), f ∈ b :: l →
      (∀ g ∈ b :: l, g ≠ f → key g < key f) →
      l.foldl (fun best y => if key y > key best then y else best) b = f := by
  intro l
  induction l with
  | nil =>
    intro b hf _
    rcases List.mem_singleton.mp hf with rfl
    rfl
  | cons x xs ih =>
    intro b hf hdom
    have hstep : (if key x > key b then x else b) = x ∨
        (if key x > key b then x else b) = b := by
      split <;> simp
    have hmem : f ∈ (if key x > key b then x else b) :: xs := by
      rcases List.mem_cons.mp hf with rfl | hf'
      · -- f = b
        by_cases hxb : x = f
        · subst hxb
          split <;> simp
        · have hlt : key x < key f := hdom x (by simp) hxb
          have : ¬ key x > key f := by omega
          simp [this]
      · rcases List.mem_cons.mp hf' with rfl | hf''
        · -- f = x
          by_cases hbf : b = f
          · subst hbf
            split <;> simp
          · have hlt : key b < key f := hdom b (by simp) hbf
            have : key f > key b := hlt
            simp [this]
        · exact List.mem_cons_of_mem _ hf''
    refine ih (if key x > key b then x else b) hmem ?_
    intro g hg hgf
    have hg2 : g ∈ b :: x :: xs := by
      rcases List.mem_cons.mp hg with rfl | hmem2
      · rcases hstep with h | h
        · rw [h]; simp
        · rw [h]; simp
      · simp [hmem2]
    exact hdom g hg2 hgf

/-- Python `max(l, key)` returns the element strictly dominating all others. -/
theorem pyMax_eq (key : String → ℕ) (l : List String) (f : String)
    (hf : f ∈ l) (hdom : ∀ g ∈ l, g ≠ f → key g < key f) :
    pyMax key l = some f := by
  cases l with
  | nil => cases hf
  | cons x xs =>
    simp only [pyMax]
    rw [pyMax_foldl key f xs x hf hdom]

/-- Rows surviving `drop_duplicates` come from the input. -/
theorem dropDupKeepLast_subset {l : List DashRow} {r : DashRow}
    (h : r ∈ dropDupKeepLast l) : r ∈ l := by
  induction l with
  | nil => cases h
  | cons x xs ih =>
    unfold dropDupKeepLast at h
    split at h
    · exact List.mem_cons_of_mem _ (ih h)
    · rcases List.mem_cons.mp h with rfl | h'
      · exact List.mem_cons_self _ _
      · exact List.mem_cons_of_mem _ (ih h')

/-- After `drop_duplicates(subset="Title", keep="last")` each title occurs at
most once. -/
theorem dropDupKeepLast_unique (l : List DashRow) (t : String) :
    ((dropDupKeepLast l).filter (fun r => r.Title = t)).length ≤ 1 := by
  induction l with
  | nil => simp [dropDupKeepLast]
  | cons x xs ih =>
    unfold dropDupKeepLast
    split
    · exact ih
    · rename_i hany
      have hall : ∀ u ∈ xs, ¬ (u.Title = x.Title) := by simpa using hany
      by_cases hx : x.Title = t
      · have hnone : ∀ s ∈ dropDupKeepLast xs, ¬ (s.Title = t) := by
          intro s hs hst
          exact hall s (dropDupKeepLast_subset hs) (hst.trans hx.symm)
        have hnil : (dropDupKeepLast xs).filter (fun r => r.Title = t) = [] := by
          rw [List.filter_eq_nil_iff]
          intro a ha
          simpa using hnone a ha
        simp [List.filter, hx, hnil]
      · simpa [List.filter, hx] using ih

/-- In a timestamp-sorted list, a surviving row's timestamp dominates every
same-titled row of the list. -/
theorem dropDupKeepLast_max {l : List DashRow}
    (hsort : List.Pairwise tsLe l) {r : DashRow} (hr : r ∈ dropDupKeepLast l) :
    ∀ s ∈ l, s.Title = r.Title → s.Timestamp ≤ r.Timestamp := by
  induction l with
  | nil => cases hr
  | cons x xs ih =>
    rcases List.pairwise_cons.mp hsort with ⟨hx, hxs⟩
    intro s hs hst
    unfold dropDupKeepLast at hr
    split at hr
    · rcases List.mem_cons.mp hs with rfl | hs'
      · exact hx r (dropDupKeepLast_subset hr)
      · exact ih hxs hr s hs' hst
    · rename_i hany
      have hall : ∀ u ∈ xs, ¬ (u.Title = x.Title) := by simpa using hany
      rcases List.mem_cons.mp hr with rfl | hr'
      · rcases List.mem_cons.mp hs with rfl | hs'
        · exact le_refl _
        · exact absurd hst (hall s hs')
      · rcases List.mem_cons.mp hs with rfl | hs'
        · exact hx r (dropDupKeepLast_subset hr')
        · exact ih hxs hr' s hs' hst

/-- Every title of the input is still represented after deduplication. -/
theorem dropDupKeepLast_covers (l : List DashRow) (t : String)
    (h : ∃ r ∈ l, r.Title = t) : ∃ q ∈ dropDupKeepLast l, q.Title = t := by
  induction l with
  | nil =>
    rcases h with ⟨r, hr, _⟩
    cases hr
  | cons x xs ih =>
    unfold dropDupKeepLast
    split
    · rename_i hany
      rcases h with ⟨r, hr, ht⟩
      rcases List.mem_cons.mp hr with rfl | hr'
      · rcases List.any_eq_true.mp hany with ⟨s, hs, hst⟩
        simp only [decide_eq_true_eq] at hst
        exact ih ⟨s, hs, hst.trans ht⟩
      · exact ih ⟨r, hr', ht⟩
    · rcases h with ⟨r, hr, ht⟩
      rcases List.mem_cons.mp hr with rfl | hr'
      · exact ⟨r, List.mem_cons_self _ _, ht⟩
      · rcases ih ⟨r, hr', ht⟩ with ⟨q, hq, hqt⟩
        exact ⟨q, List.mem_cons_of_mem _ hq, hqt⟩

/-! ### Claim theorems -/

/-- Rounding half-to-even fixes integers. -/
theorem roundHalfToEven_intCast (n : ℤ) : roundHalfToEven (n : ℚ) = n := by
  unfold roundHalfToEven
  rw [Int.floor_intCast]
  norm_num

/-- `.round(1)` fixes the integer `20`. -/
theorem round1_twenty : round1 20 = 20 := by
  unfold round1
  have h2 : (20 : ℚ) * 10 = ((200 : ℤ) : ℚ) := by norm_num
  rw [h2, roundHalfToEven_intCast]
  norm_num

/-- C1: the derived discount equals `(list_price − current_price) / list_price
× 100` rounded to one decimal place, and it is computed only when both parsed
prices are present and the list price is strictly positive; otherwise the
result is null; the division never sees a zero or null divisor.  In
particular `discount(1000, 800) = 20.0`, `discount(0, 800) = null` and
`discount(null, 800) = null`. -/
theorem discount_contract :
    (∀ cp mp : Option ℚ, discount_percent cp mp ≠ none →
      ∃ c m, cp = some c ∧ mp = some m ∧ 0 < m ∧
        discount_percent cp mp = some (round1 ((m - c) / m * 100))) ∧
    (∀ cp mp : Option ℚ,
      (cp = none ∨ mp = none ∨ ∀ m, mp = some m → m ≤ 0) →
      discount_percent cp mp = none) ∧
    discount_percent (some 800) (some 1000) = some 20 ∧
    discount_percent (some 800) (some 0) = none ∧
    discount_percent (some 800) none = none := by
  have hex : discount_percent (some 800) (some 1000) = some 20 := by
    show (if (0 : ℚ) < 1000 ∧ (0 : ℚ) < 800 then
        some (round1 (((1000 : ℚ) - 800) / 1000 * 100)) else none) = some 20
    rw [if_pos (by norm_num)]
    have hv : ((1000 : ℚ) - 800) / 1000 * 100 = 20 := by norm_num
    rw [hv, round1_twenty]
  have hzero : discount_percent (some 800) (some 0) = none := by
    show (if (0 : ℚ) < 0 ∧ (0 : ℚ) < 800 then
        some (round1 (((0 : ℚ) - 800) / 0 * 100)) else none) = none
    rw [if_neg]
    intro hc
    exact absurd hc.1 (lt_irrefl 0)
  refine ⟨?_, ?_, hex, hzero, rfl⟩
  · intro cp mp h
    match cp, mp with
    | none, _ => exact absurd rfl h
    | some c, none => exact absurd rfl h
    | some c, some m =>
      by_cases hpos : 0 < m ∧ 0 < c
      · refine ⟨c, m, rfl, rfl, hpos.1, ?_⟩
        show (if 0 < m ∧ 0 < c then some (round1 ((m - c) / m * 100)) else none) = _
        rw [if_pos hpos]
      · exfalso
        apply h
        show (if 0 < m ∧ 0 < c then some (round1 ((m - c) / m * 100)) else none) = none
        rw [if_neg hpos]
  · intro cp mp h
    match cp, mp with
    | none, _ => rfl
    | some c, none => rfl
    | some c, some m =>
      rcases h with h | h | h
      · exact absurd h (by simp)
      · exact absurd h (by simp)
      · have hm : m ≤ 0 := h m rfl
        show (if 0 < m ∧ 0 < c then some (round1 ((m - c) / m * 100)) else none) = none
        rw [if_neg]
        intro hc
        exact absurd hm (not_le.mpr hc.1)

/-- C1 witness: the theorem's first conjunct instantiated at the concrete
masked row `(current = 800, MRP = 1000)`. -/
theorem discount_contract_witness :
    ∃ c m, (some (800 : ℚ)) = some c ∧ (some (1000 : ℚ)) = some m ∧ 0 < m ∧
      discount_percent (some 800) (some 1000) = some (round1 ((m - c) / m * 100)) :=
  discount_contract.1 (some 800) (some 1000)
    (by rw [discount_contract.2.2.1]; exact Option.some_ne_none _)

/-- C2: `clean_price` keeps only digits and the decimal point, returns null
(not zero) when nothing is left, returns null on any conversion failure, and
sends each sentinel string `"N/A"`, `"None"`, `""`, `"Out of stock"`,
`"Currently unavailable"` to null; `clean_price "₹1,23,456.00" = 123456`. -/
theorem clean_price_normalization :
    (clean_price (some "N/A") = none ∧
     clean_price (some "None") = none ∧
     clean_price (some "") = none ∧
     clean_price (some "Out of stock") = none ∧
     clean_price (some "Currently unavailable") = none ∧
     clean_price (some "₹1,23,456.00") = some 123456) ∧
    (∀ s : String, clean_price (some s) =
      if keepDigits s.data = [] then none else pyFloat (keepDigits s.data)) ∧
    (∀ s : String, keepDigits s.data = [] → clean_price (some s) = none) ∧
    (∀ s : String, pyFloat (keepDigits s.data) = none →
      clean_price (some s) = none) := by
  have hex : clean_price (some "₹1,23,456.00") = some 123456 := by
    have h : clean_price (some "₹1,23,456.00") =
        some ((digitsVal "123456".data : ℚ) +
          (digitsVal "00".data : ℚ) / (10 : ℚ) ^ ("00".data.length)) := rfl
    have h1 : digitsVal "123456".data = 123456 := by decide
    have h2 : digitsVal "00".data = 0 := by decide
    have h3 : ("00".data).length = 2 := by decide
    rw [h, h1, h2, h3]
    norm_num
  refine ⟨⟨rfl, rfl, rfl, rfl, rfl, hex⟩,
    clean_price_eq_keepDigits, ?_, ?_⟩
  · intro s h
    rw [clean_price_eq_keepDigits, if_pos h]
  · intro s h
    rw [clean_price_eq_keepDigits]
    split
    · rfl
    · exact h

/-- C2 witness: the stripped-to-empty conjunct at the concrete sentinel
`"N/A"`. -/
theorem clean_price_normalization_witness :
    clean_price (some "N/A") = none :=
  clean_price_normalization.2.2.1 "N/A" (by decide)

/-- C3: for every input cell, `clean_price` returns either a non-negative
number or null; the conversion failure is caught, so nothing escapes to the
caller (the embedding is a total function). -/
theorem clean_price_total_nonneg (x : Option String) :
    clean_price x = none ∨ ∃ q, 0 ≤ q ∧ clean_price x = some q := by
  match x with
  | none => exact Or.inl rfl
  | some s =>
    rw [clean_price_eq_keepDigits]
    split
    · exact Or.inl rfl
    · cases hq : pyFloat (keepDigits s.data) with
      | none => exact Or.inl rfl
      | some q => exact Or.inr ⟨q, pyFloat_nonneg _ q hq, rfl⟩

/-- C9: the discount of a row is non-null only when the parsed current price
is strictly positive; a row whose parsed current price is `0` gets a null
discount even with a strictly positive list price. -/
theorem discount_requires_positive_current :
    (∀ cp mp : Option ℚ, discount_percent cp mp ≠ none →
      ∃ c, cp = some c ∧ 0 < c) ∧
    (∀ m : ℚ, 0 < m → discount_percent (some 0) (some m) = none) := by
  constructor
  · intro cp mp h
    match cp, mp with
    | none, _ => exact absurd rfl h
    | some c, none => exact absurd rfl h
    | some c, some m =>
      by_cases hpos : 0 < m ∧ 0 < c
      · exact ⟨c, rfl, hpos.2⟩
      · exfalso
        apply h
        show (if 0 < m ∧ 0 < c then some (round1 ((m - c) / m * 100)) else none) = none
        rw [if_neg hpos]
  · intro m _
    show (if 0 < m ∧ 0 < (0 : ℚ) then some (round1 ((m - 0) / m * 100)) else none) = none
    rw [if_neg]
    intro hc
    exact absurd hc.2 (lt_irrefl 0)

/-- C9 witness: current price `0`, list price `1000`: the discount is null. -/
theorem discount_requires_positive_current_witness :
    discount_percent (some 0) (some 1000) = none :=
  discount_requires_positive_current.2 1000 (by decide)

/-- C4: a page-load timeout (the title wait raising `TimeoutException`) still
yields a full record: the title carries the manual-check marker and every
other field keeps its initialization value (`"N/A"` sentinels, the record's
own url and timestamp). -/
theorem timeout_record (url ts : String) (page : Page)
    (h : page.titleResult = none) :
    get_amazon_data url ts page =
      { URL := url, Title := "Blocked or Timeout - Manual check needed",
        Price := "N/A", MRP := "N/A", Discount := "N/A", Rating := "N/A",
        Reviews := "N/A", Availability := "N/A", Timestamp := ts } := by
  unfold get_amazon_data
  rw [h]

/-- C4 witness: a concrete timed-out page. -/
theorem timeout_record_witness :
    get_amazon_data "u" "t" ⟨none, none, none, none, none, none, none, none⟩ =
      { URL := "u", Title := "Blocked or Timeout - Manual check needed",
        Price := "N/A", MRP := "N/A", Discount := "N/A", Rating := "N/A",
        Reviews := "N/A", Availability := "N/A", Timestamp := "t" } :=
  timeout_record "u" "t" ⟨none, none, none, none, none, none, none, none⟩ rfl

/-- C7 counterexample: a record whose page load timed out is emitted with
`Availability = "N/A"`, so the availability of an emitted record is not
always `"In Stock"` when the availability element is unreadable, and
`"N/A"` availability does occur. -/
theorem availability_na_emitted :
    (get_amazon_data "u" "t"
      ⟨none, none, none, none, none, none, none, none⟩).Availability = "N/A" :=
  rfl

/-- C7 amended: availability defaults to `"In Stock"` when the availability
element is unreadable on a page whose title loaded (no timeout); a record
whose page load timed out is emitted with the `"N/A"` sentinel instead. -/
theorem availability_default (url ts : String) (page : Page) :
    (∀ t, page.titleResult = some t → page.availability = none →
      (get_amazon_data url ts page).Availability = "In Stock") ∧
    (page.titleResult = none →
      (get_amazon_data url ts page).Availability = "N/A") := by
  constructor
  · intro t ht ha
    unfold get_amazon_data
    rw [ht, ha]
  · intro h
    unfold get_amazon_data
    rw [h]

/-- C7 witness: a loaded page whose availability element is unreadable. -/
theorem availability_default_witness :
    (get_amazon_data "u" "t"
      ⟨some "Item", none, none, none, none, none, none, none⟩).Availability =
      "In Stock" :=
  (availability_default "u" "t"
    ⟨some "Item", none, none, none, none, none, none, none⟩).1 "Item" rfl rfl

/-- C8: every emitted record carries exactly the url and timestamp of its
scrape; the CSV has the nine-column header
`URL,Title,Price,MRP,Discount,Rating,Reviews,Availability,Timestamp`, one row
of nine fields per configured product, in order; the output file is named
`amazon_prices_<run timestamp>.csv` and matches the dashboard's snapshot
pattern. -/
theorem output_shape (urls : List String) (pages : String → Page)
    (ts : String → String) (runTs : String) :
    (outputCsv urls pages ts).head? =
      some ["URL", "Title", "Price", "MRP", "Discount", "Rating", "Reviews",
            "Availability", "Timestamp"] ∧
    (scrapeAll urls pages ts).length = urls.length ∧
    (∀ i (h : i < urls.length) (h2 : i < (scrapeAll urls pages ts).length),
      ((scrapeAll urls pages ts).get ⟨i, h2⟩).URL = urls.get ⟨i, h⟩ ∧
      ((scrapeAll urls pages ts).get ⟨i, h2⟩).Timestamp = ts (urls.get ⟨i, h⟩)) ∧
    (∀ r ∈ scrapeAll urls pages ts, (recordRow r).length = 9) ∧
    (∀ u tstamp page, (get_amazon_data u tstamp page).URL = u ∧
      (get_amazon_data u tstamp page).Timestamp = tstamp) ∧
    outputFilename runTs = "amazon_prices_" ++ runTs ++ ".csv" ∧
    matchesPattern (outputFilename runTs) = true := by
  have hurl : ∀ u tstamp page, (get_amazon_data u tstamp page).URL = u ∧
      (get_amazon_data u tstamp page).Timestamp = tstamp := by
    intro u tstamp page
    unfold get_amazon_data
    cases page.titleResult <;> exact ⟨rfl, rfl⟩
  refine ⟨rfl, by simp [scrapeAll], ?_, ?_, hurl, rfl,
    matchesPattern_outputFilename runTs⟩
  · intro i h h2
    have hget : (scrapeAll urls pages ts).get ⟨i, h2⟩ =
        get_amazon_data (urls.get ⟨i, h⟩) (ts (urls.get ⟨i, h⟩))
          (pages (urls.get ⟨i, h⟩)) := by
      simp [scrapeAll, List.getElem_map]
    rw [hget]
    exact hurl _ _ _
  · intro r _
    rfl

/-- C8 witness: one configured URL, one record, its url and timestamp in
place. -/
theorem output_shape_witness :
    (scrapeAll ["u"] (fun _ => ⟨none, none, none, none, none, none, none, none⟩)
      (fun _ => "t")).length = ["u"].length ∧
    matchesPattern (outputFilename "20250101_0000") = true :=
  ⟨(output_shape ["u"] (fun _ => ⟨none, none, none, none, none, none, none, none⟩)
      (fun _ => "t") "20250101_0000").2.1,
   (output_shape ["u"] (fun _ => ⟨none, none, none, none, none, none, none, none⟩)
      (fun _ => "t") "20250101_0000").2.2.2.2.2.2⟩

/-- C5: when the matching snapshot file with the strictly latest creation
time exists, `load_data` selects it — independently of its position in the
listing and hence of filename lexical order — and returns it together with
its parsed contents. -/
theorem load_data_selects_latest {α : Type} (listing : List String)
    (ctime : String → ℕ) (readCsv : String → Option α) (f : String)
    (hf : f ∈ listing) (hmatch : matchesPattern f = true)
    (hdom : ∀ g ∈ listing, matchesPattern g = true → g ≠ f → ctime g < ctime f) :
    pyMax ctime (listing.filter fun g => matchesPattern g) = some f ∧
    ∀ d, readCsv f = some d →
      load_data listing ctime readCsv = (some d, some f) := by
  have hmem : f ∈ listing.filter fun g => matchesPattern g :=
    List.mem_filter.mpr ⟨hf, hmatch⟩
  have hdom' : ∀ g ∈ (listing.filter fun g => matchesPattern g), g ≠ f →
      ctime g < ctime f := by
    intro g hg hgf
    rcases List.mem_filter.mp hg with ⟨hgl, hgm⟩
    exact hdom g hgl hgm hgf
  have hmax : pyMax ctime (listing.filter fun g => matchesPattern g) = some f :=
    pyMax_eq ctime _ f hmem hdom'
  refine ⟨hmax, ?_⟩
  intro d hd
  show (match pyMax ctime (listing.filter fun g => matchesPattern g) with
    | none => ((none : Option α), (none : Option String))
    | some latest =>
      match readCsv latest with
      | some df => (some df, some latest)
      | none => (none, none)) = (some d, some f)
  rw [hmax]
  show (match readCsv f with
    | some df => (some df, some f)
    | none => ((none : Option α), (none : Option String))) = (some d, some f)
  rw [hd]

/-- C5 witness: two matching files in lexically decreasing order, the
lexically smaller one created later: it is the one selected. -/
theorem load_data_selects_latest_witness :
    pyMax (fun g => if g = "amazon_prices_a.csv" then 2 else 1)
        ((["amazon_prices_b.csv", "amazon_prices_a.csv"].filter
          fun g => matchesPattern g)) = some "amazon_prices_a.csv" ∧
    load_data ["amazon_prices_b.csv", "amazon_prices_a.csv"]
        (fun g => if g = "amazon_prices_a.csv" then 2 else 1)
        (fun _ => some 0) = (some 0, some "amazon_prices_a.csv") := by
  have h := load_data_selects_latest
    ["amazon_prices_b.csv", "amazon_prices_a.csv"]
    (fun g => if g = "amazon_prices_a.csv" then 2 else 1)
    (fun _ => some (0 : ℕ)) "amazon_prices_a.csv"
    (by decide) (by decide) (by decide)
  exact ⟨h.1, h.2 0 rfl⟩

/-- C6: with zero matching snapshot files `load_data` returns the null pair
instead of raising, and the presenter's `st.stop()` guard halts rendering. -/
theorem load_data_no_files {α : Type} (listing : List String)
    (ctime : String → ℕ) (readCsv : String → Option α)
    (h : listing.filter (fun f => matchesPattern f) = []) :
    load_data listing ctime readCsv = (none, none) ∧
    presenterStops (load_data listing ctime readCsv) = true := by
  have hld : load_data listing ctime readCsv = (none, none) := by
    unfold load_data
    rw [h]
    rfl
  rw [hld]
  exact ⟨rfl, rfl⟩

/-- C6 witness: a listing with no matching file. -/
theorem load_data_no_files_witness :
    load_data ["other.txt"] (fun _ => 0) (fun _ => some 0) =
      ((none : Option ℕ), (none : Option String)) ∧
    presenterStops (load_data ["other.txt"] (fun _ => 0)
      (fun _ => some (0 : ℕ))) = true :=
  load_data_no_files ["other.txt"] (fun _ => 0) (fun _ => some 0) (by decide)

/-- C10: the current-prices table keeps at most one row per distinct `Title`;
the kept row's timestamp dominates every same-titled row of the input, every
input title stays represented, and two rows differing only in `URL` but
sharing a `Title` collapse to a single row — deduplication keys on `Title`,
not on `URL`. -/
theorem current_table_dedup (rows : List DashRow) :
    (∀ t, ((dashCurrent rows).filter (fun r => r.Title = t)).length ≤ 1) ∧
    (∀ r ∈ dashCurrent rows, ∀ s ∈ rows, s.Title = r.Title →
      s.Timestamp ≤ r.Timestamp) ∧
    (∀ r ∈ rows, ∃ q ∈ dashCurrent rows, q.Title = r.Title) ∧
    (∀ a b : DashRow, a.Title = b.Title →
      (dashCurrent [a, b]).length = 1) := by
  refine ⟨fun t => dropDupKeepLast_unique _ t, ?_, ?_, ?_⟩
  · intro r hr s hs hst
    have hsort : List.Pairwise tsLe (List.insertionSort tsLe rows) :=
      List.sorted_insertionSort tsLe rows
    have hs' : s ∈ List.insertionSort tsLe rows :=
      (List.mem_insertionSort tsLe).mpr hs
    exact dropDupKeepLast_max hsort hr s hs' hst
  · intro r hr
    exact dropDupKeepLast_covers _ r.Title
      ⟨r, (List.mem_insertionSort tsLe).mpr hr, rfl⟩
  · intro a b hab
    have hlen : ∀ x y : DashRow, x.Title = y.Title →
        (dropDupKeepLast [x, y]).length = 1 := by
      intro x y hxy
      unfold dropDupKeepLast
      rw [if_pos]
      · rfl
      · simp [hxy.symm]
    have hpair : List.insertionSort tsLe [a, b] = [a, b] ∨
        List.insertionSort tsLe [a, b] = [b, a] := by
      by_cases h : tsLe a b
      · left
        simp [List.insertionSort, List.orderedInsert, h]
      · right
        simp [List.insertionSort, List.orderedInsert, h]
    rcases hpair with h | h <;> unfold dashCurrent <;> rw [h]
    · exact hlen a b hab
    · exact hlen b a hab.symm

/-- C10 witness: two rows with the same title and different urls: one row
survives, and the earlier timestamp is dominated by the kept one. -/
theorem current_table_dedup_witness :
    (dashCurrent [⟨"X", "u1", 1⟩, ⟨"X", "u2", 2⟩]).length = 1 ∧
    ((dashCurrent [⟨"X", "u1", 1⟩, ⟨"X", "u2", 2⟩]).filter
      (fun r => r.Title = "X")).length ≤ 1 ∧
    (⟨"X", "u1", 1⟩ : DashRow).Timestamp ≤ (⟨"X", "u2", 2⟩ : DashRow).Timestamp :=
  ⟨(current_table_dedup [⟨"X", "u1", 1⟩, ⟨"X", "u2", 2⟩]).2.2.2
      ⟨"X", "u1", 1⟩ ⟨"X", "u2", 2⟩ rfl,
   (current_table_dedup [⟨"X", "u1", 1⟩, ⟨"X", "u2", 2⟩]).1 "X",
   (current_table_dedup [⟨"X", "u1", 1⟩, ⟨"X", "u2", 2⟩]).2.1
      ⟨"X", "u2", 2⟩ (by decide) ⟨"X", "u1", 1⟩ (by decide) rfl⟩

end AmazonTracker
